import Mathlib

/-!
Verification of the farm-simulation claims for `src/a3.py`.

The repository's only source file is the controller/view `a3.py`; the
simulation model (`model.py`) and the constant tables (`constants.py`) it
imports are not under `src/`.  Controller-level functions
(`create_plants`, `inspect_ground`, the `handle_keypress` branches) are
embedded directly from `a3.py`; the model operations they call are
modelled from the specification, each marked `Modelled from the spec:`.
-/

namespace Farm

/-! ## Inventory

The player's inventory is a Python dict from item name to quantity,
embedded as an association list with unique keys kept in insertion
order.  Zero-quantity entries are distinct from absent keys, as the
spec requires. -/

abbrev Inventory := List (String × Nat)

/-- Quantity of `name` in the inventory; an absent key counts as 0. -/
def qty : Inventory → String → Nat
  | [], _ => 0
  | (k, v) :: rest, name => if k = name then v else qty rest name

/-- Key-membership test, the embedding of Python's `name in inventory`. -/
def hasKey : Inventory → String → Bool
  | [], _ => false
  | (k, _) :: rest, name => k = name || hasKey rest name

/-- Modelled from the spec: `Player.add_item((name, amount))` of the missing
`model.py` — increments the inventory quantity for `name`, creating the entry
if absent (dict update semantics). -/
def addItem : Inventory → String → Nat → Inventory
  | [], name, amount => [(name, amount)]
  | (k, v) :: rest, name, amount =>
    if k = name then (k, v + amount) :: rest
    else (k, v) :: addItem rest name amount

/-- Modelled from the spec: `Player.remove_item((name, amount))` of the missing
`model.py` — decrements the quantity, clamping at zero so it never goes
negative (the spec offers "fails or clamps to zero"; we take the clamping
reading, which agrees with the failing reading on every quantity the claims
touch). -/
def removeItem : Inventory → String → Nat → Inventory
  | [], _, _ => []
  | (k, v) :: rest, name, amount =>
    if k = name then (k, v - amount) :: rest
    else (k, v) :: removeItem rest name amount

/-! ## Player -/

structure Player where
  position : Int × Int
  direction : String
  energy : Nat
  money : Nat
  inventory : Inventory
  selected : Option String
deriving Repr, DecidableEq

/-- Modelled from the spec: `Player.buy(name, unit_price)` of the missing
`model.py` — fails if money < unit_price; on success debits the money and
credits one unit of the item to the inventory.  The returned Bool is the
success indicator. -/
def buy (p : Player) (name : String) (price : Nat) : Player × Bool :=
  if p.money < price then (p, false)
  else ({ p with money := p.money - price,
                 inventory := addItem p.inventory name 1 }, true)

/-- Modelled from the spec: `Player.sell(name, unit_price)` of the missing
`model.py` — fails if the inventory quantity for `name` is 0; on success
credits the money and debits one unit.  The returned Bool is the success
indicator. -/
def sell (p : Player) (name : String) (price : Nat) : Player × Bool :=
  if qty p.inventory name = 0 then (p, false)
  else ({ p with money := p.money + price,
                 inventory := removeItem p.inventory name 1 }, true)

/-! ## Plants -/

/-- Modelled from the spec: a plant of the missing `model.py` — a name from a
fixed small set, a growth stage bounded by a per-species maximum, and a
species-specific harvest yield. -/
structure Plant where
  name : String
  stage : Nat
  maxStage : Nat
  yieldAmount : Nat
deriving Repr, DecidableEq

/-- Modelled from the spec: `Plant.advance_stage()` — called once per elapsed
day; increments the stage up to the per-species maximum. -/
def advanceStage (pl : Plant) : Plant :=
  if pl.stage < pl.maxStage then { pl with stage := pl.stage + 1 } else pl

/-- Modelled from the spec: `Plant.can_harvest()` — true once the stage
reaches the species' mature stage (its maximum). -/
def canHarvest (pl : Plant) : Bool :=
  pl.maxStage ≤ pl.stage

/-- Modelled from the spec: `PotatoPlant()` of the missing `model.py`; the
lowercase single-word name is forced by `a3.py`'s
`plant.split()[0].lower()` construction. -/
def PotatoPlant : Plant := ⟨"potato", 0, 5, 1⟩

/-- Modelled from the spec: `KalePlant()` of the missing `model.py`. -/
def KalePlant : Plant := ⟨"kale", 0, 4, 1⟩

/-- Modelled from the spec: `BerryPlant()` of the missing `model.py`. -/
def BerryPlant : Plant := ⟨"berry", 0, 3, 1⟩

/-! ## Tile grid

The map is a grid of tile-kind characters; the plants are a Python dict
from position to plant, embedded as an association list with unique
keys.  Positions are `Int × Int` pairs `(row, col)` so that negative
out-of-bounds positions are representable. -/

/-- Modelled from the spec: the `SOIL` tile character of the missing
`constants.py`. -/
def SOIL : Char := 'S'

/-- Modelled from the spec: the untilled-ground tile character of the missing
`constants.py`. -/
def UNTILLED : Char := 'U'

/-- Modelled from the spec: the grass tile character of the missing
`constants.py`. -/
def GRASS : Char := 'G'

/-- Modelled from the spec: the `IMAGES` table of the missing `constants.py`,
mapping each tile character (and each player-direction key, as used by
`FarmView.redraw`) to an image file name. -/
def IMAGES : List (Char × String) :=
  [('G', "grass.png"), ('S', "soil.png"), ('U', "untilled_soil.png"),
   ('w', "player_w.png"), ('a', "player_a.png"),
   ('s', "player_s.png"), ('d', "player_d.png")]

/-- Key-membership test for `IMAGES`, the embedding of Python's
`tile in IMAGES`. -/
def imagesHasKey (c : Char) : Bool :=
  IMAGES.any (fun e => e.1 = c)

/-- Tile character of the grid at a position; `none` out of bounds. -/
def tileAt (m : List (List Char)) (p : Int × Int) : Option Char :=
  if 0 ≤ p.1 ∧ 0 ≤ p.2 then
    (m.get? p.1.toNat).bind (fun row => row.get? p.2.toNat)
  else none

/-- Replace the element at an index, leaving the list unchanged when the
index is out of range. -/
def setNth {α : Type} : List α → Nat → (α → α) → List α
  | [], _, _ => []
  | x :: xs, 0, f => f x :: xs
  | x :: xs, n + 1, f => x :: setNth xs n f

/-- Write a tile character at a position of the grid. -/
def setTile (m : List (List Char)) (p : Int × Int) (t : Char) :
    List (List Char) :=
  if 0 ≤ p.1 ∧ 0 ≤ p.2 then
    setNth m p.1.toNat (fun row => setNth row p.2.toNat (fun _ => t))
  else m

/-- Lookup in the plants dict, the embedding of `self._plants.get(position)`. -/
def plantAt : List ((Int × Int) × Plant) → (Int × Int) → Option Plant
  | [], _ => none
  | (q, pl) :: rest, p => if q = p then some pl else plantAt rest p

/-- Dict update `self._plants[position] = plant`: overwrite the existing
entry or append a new one. -/
def setPlant : List ((Int × Int) × Plant) → (Int × Int) → Plant →
    List ((Int × Int) × Plant)
  | [], p, pl => [(p, pl)]
  | (q, old) :: rest, p, pl =>
    if q = p then (q, pl) :: rest else (q, old) :: setPlant rest p pl

/-- Dict deletion `del self._plants[position]`: drop every entry keyed by the
position (on the unique-key states the dict produces, exactly one). -/
def removePlantAt : List ((Int × Int) × Plant) → (Int × Int) →
    List ((Int × Int) × Plant)
  | [], _ => []
  | (q, pl) :: rest, p =>
    if q = p then removePlantAt rest p else (q, pl) :: removePlantAt rest p

/-! ## Farm model -/

/-- Modelled from the spec: the `FarmModel` of the missing `model.py` — owns
the tile grid, the plants, the player and the day counter. -/
structure FarmModel where
  map : List (List Char)
  plants : List ((Int × Int) × Plant)
  player : Player
  daysElapsed : Nat
deriving Repr, DecidableEq

/-- Modelled from the spec: the fixed maximum player energy of the missing
`constants.py`, to which `new_day` replenishes. -/
def MAX_ENERGY : Nat := 100

/-- Grid bounds check: rows `0 ≤ r < height`, columns `0 ≤ c < width`. -/
def FarmModel.inBounds (farm : FarmModel) (p : Int × Int) : Bool :=
  decide (0 ≤ p.1) && decide (p.1 < (farm.map.length : Int))
    && decide (0 ≤ p.2) && decide (p.2 < ((farm.map.headD []).length : Int))

/-- Modelled from the spec: `FarmModel.till_soil(position)` — converts an
untilled ground tile to soil if eligible; fails silently (no-op) when the
position is out of bounds or the tile is ineligible. -/
def FarmModel.till_soil (farm : FarmModel) (p : Int × Int) : FarmModel :=
  if farm.inBounds p ∧ tileAt farm.map p = some UNTILLED then
    { farm with map := setTile farm.map p SOIL }
  else farm

/-- Modelled from the spec: `FarmModel.untill_soil(position)` — the reverse
operation; following the spec's recommended policy it is rejected while a
plant occupies the position, and is a no-op out of bounds or on a non-soil
tile. -/
def FarmModel.untill_soil (farm : FarmModel) (p : Int × Int) : FarmModel :=
  if farm.inBounds p ∧ tileAt farm.map p = some SOIL
      ∧ plantAt farm.plants p = none then
    { farm with map := setTile farm.map p UNTILLED }
  else farm

/-- Modelled from the spec: `FarmModel.add_plant(position, plant)` — succeeds
only if the tile is soil and unoccupied (and in bounds); returns the
success indicator together with the resulting model. -/
def FarmModel.add_plant (farm : FarmModel) (p : Int × Int) (pl : Plant) :
    Bool × FarmModel :=
  if farm.inBounds p ∧ tileAt farm.map p = some SOIL
      ∧ plantAt farm.plants p = none then
    (true, { farm with plants := setPlant farm.plants p pl })
  else (false, farm)

/-- Modelled from the spec: `FarmModel.remove_plant(position)` — removes any
plant at the position; no-op if none. -/
def FarmModel.remove_plant (farm : FarmModel) (p : Int × Int) : FarmModel :=
  if farm.inBounds p ∧ (plantAt farm.plants p).isSome then
    { farm with plants := removePlantAt farm.plants p }
  else farm

/-- Modelled from the spec: `FarmModel.harvest_plant(position)` — if a plant
is present and `can_harvest()` is true, removes it and returns
`(item_name, yield_amount)`; otherwise returns nothing and mutates
nothing. -/
def FarmModel.harvest_plant (farm : FarmModel) (p : Int × Int) :
    Option (String × Nat) × FarmModel :=
  if farm.inBounds p then
    match plantAt farm.plants p with
    | some pl =>
      if canHarvest pl then
        (some (pl.name, pl.yieldAmount),
         { farm with plants := removePlantAt farm.plants p })
      else (none, farm)
    | none => (none, farm)
  else (none, farm)

/-- Modelled from the spec: `FarmModel.new_day()` — increments the day
counter, calls `advance_stage()` on every live plant, and replenishes the
player's energy to the fixed maximum; nothing else changes. -/
def FarmModel.new_day (farm : FarmModel) : FarmModel :=
  { farm with
    daysElapsed := farm.daysElapsed + 1,
    plants := farm.plants.map (fun e => (e.1, advanceStage e.2)),
    player := { farm.player with energy := MAX_ENERGY } }

/-! ## String helpers for the controller

Python's `"Seed" in plant` and `plant.split()[0].lower()` are embedded
with structural recursions over the character list. -/

/-- Test whether the first list is an initial segment of the second, the
basic step of Python's substring test. -/
def leadsWith : List Char → List Char → Bool
  | [], _ => true
  | _ :: _, [] => false
  | a :: as, b :: bs => a == b && leadsWith as bs

/-- Substring test on character lists: embedding of Python's
`sub in s` for strings. -/
def hasSub (sub : List Char) : List Char → Bool
  | [] => leadsWith sub []
  | c :: rest => leadsWith sub (c :: rest) || hasSub sub rest

/-- Drop the leading spaces, the first step of Python's `split()`. -/
def dropSpaces : List Char → List Char
  | [] => []
  | c :: rest => if c = ' ' then dropSpaces rest else c :: rest

/-- Take the characters up to the next space. -/
def takeWord : List Char → List Char
  | [] => []
  | c :: rest => if c = ' ' then [] else c :: takeWord rest

/-- First whitespace-delimited token of a string: embedding of Python's
`s.split()[0]` (on an all-space string Python would raise; here the empty
string is returned, a case the controller's truthiness guard excludes). -/
def firstToken (s : String) : String :=
  String.mk (takeWord (dropSpaces s.toList))

/-- Lowercase a string character by character: embedding of Python's
`s.lower()`. -/
def lowerString (s : String) : String :=
  String.mk (s.toList.map Char.toLower)

/-! ## Controller: `a3.py` -/

/-- Embedding of `FarmGame.create_plants` (src/a3.py:338-354): builds the
three species and returns the first whose `get_name()` equals the given
name, `None` otherwise. -/
def create_plants (plant_name : String) : Option Plant :=
  let plants := [PotatoPlant, KalePlant, BerryPlant]
  plants.find? (fun plant => plant_name == plant.name)

/-- Embedding of `FarmGame.inspect_ground`'s dict construction
(src/a3.py:328-333) restricted to one row starting at column `c`: an entry
per tile whose character is an `IMAGES` key. -/
def positionTileRow : List Char → Nat → Nat → List ((Int × Int) × Char)
  | [], _, _ => []
  | t :: ts, r, c =>
    (if imagesHasKey t then [(((r : Int), (c : Int)), t)] else [])
      ++ positionTileRow ts r (c + 1)

/-- Embedding of `FarmGame.inspect_ground`'s dict construction over the rows
of the map starting at row `r`. -/
def positionTileRows : List (List Char) → Nat → List ((Int × Int) × Char)
  | [], _ => []
  | row :: rest, r => positionTileRow row r 0 ++ positionTileRows rest (r + 1)

/-- Embedding of `FarmGame.inspect_ground` (src/a3.py:315-336): builds the
position-to-tile dict over the model's map and looks the position up in it,
returning `None` on a miss. -/
def inspect_ground (farm : FarmModel) (position : Int × Int) : Option Char :=
  let position_tile := positionTileRows farm.map 0
  (position_tile.find? (fun e => decide (e.1 = position))).map (fun e => e.2)

/-- Definition following the words of claim C10: the tile character at the
position when the position lies within the map and that character is a key
of `IMAGES`, and `None` otherwise. -/
def inspectGroundSpec (farm : FarmModel) (position : Int × Int) : Option Char :=
  match tileAt farm.map position with
  | some t => if imagesHasKey t then some t else none
  | none => none

/-- Modelled from the spec: the one-cell displacement of each direction key
(rows grow downwards). -/
def dirDelta : String → Int × Int
  | "w" => (-1, 0)
  | "s" => (1, 0)
  | "a" => (0, -1)
  | "d" => (0, 1)
  | _ => (0, 0)

/-- Modelled from the spec: `FarmModel.move_player(direction)` — updates the
facing direction always, and the position by one cell only when the
destination is within the grid bounds. -/
def FarmModel.move_player (farm : FarmModel) (d : String) : FarmModel :=
  let np := (farm.player.position.1 + (dirDelta d).1,
             farm.player.position.2 + (dirDelta d).2)
  { farm with player :=
      { farm.player with
        direction := d,
        position := if farm.inBounds np then np else farm.player.position } }

/-- Embedding of the `"p"` branch of `FarmGame.handle_keypress`
(src/a3.py:386-405): with soil under a truthy selected item that is an
inventory key containing `"Seed"`, builds the plant from the lowercased
first word of the item name and, when `add_plant` accepts it, removes one
unit of the item; Python would pass `None` to `add_plant` when
`create_plants` matches no species, which never happens for the game's
seed items and is embedded as leaving the model unchanged.  The remaining
statements of the branch only update view widgets. -/
def plantAction (farm : FarmModel) : FarmModel :=
  let position := farm.player.position
  match farm.player.selected with
  | none => farm
  | some plant =>
    if inspect_ground farm position = some SOIL ∧ plant ≠ "" then
      if hasKey farm.player.inventory plant
          ∧ hasSub "Seed".toList plant.toList then
        match create_plants (lowerString (firstToken plant)) with
        | some created_plant =>
          let res := farm.add_plant position created_plant
          if res.1 then
            { res.2 with player :=
                { res.2.player with
                  inventory := removeItem res.2.player.inventory plant 1 } }
          else res.2
        | none => farm
      else farm
    else farm

/-- Embedding of the `"h"` branch of `FarmGame.handle_keypress`
(src/a3.py:411-417): harvests at the player's position and, when a result
comes back, adds the harvested `(item_name, amount)` pair to the player's
inventory. -/
def harvestAction (farm : FarmModel) : FarmModel :=
  let res := farm.harvest_plant farm.player.position
  match res.1 with
  | some plant_harvested =>
    { res.2 with player :=
        { res.2.player with
          inventory := addItem res.2.player.inventory
            plant_harvested.1 plant_harvested.2 } }
  | none => res.2

/-- Embedding of `FarmGame.handle_keypress` (src/a3.py:369-421): the
dispatch over the recognised keys; any other key changes nothing. -/
def handle_keypress (farm : FarmModel) (keysym : String) : FarmModel :=
  if keysym = "t" then farm.till_soil farm.player.position
  else if keysym = "u" then farm.untill_soil farm.player.position
  else if keysym = "p" then plantAction farm
  else if keysym = "r" then farm.remove_plant farm.player.position
  else if keysym = "h" then harvestAction farm
  else if keysym = "w" ∨ keysym = "a" ∨ keysym = "s" ∨ keysym = "d" then
    farm.move_player keysym
  else farm

/-! ## Concrete states used by the witnesses -/

/-- Small concrete farm: a 2×2 grid with grass, two soil tiles and one
untilled tile, a player on the soil at `(0, 1)` holding two potato seeds. -/
def farmA : FarmModel :=
  { map := [['G', 'S'], ['U', 'S']],
    plants := [],
    player := { position := (0, 1), direction := "s", energy := 50,
                money := 20, inventory := [("Potato Seed", 2)],
                selected := some "Potato Seed" },
    daysElapsed := 0 }

/-- Concrete farm carrying one growing potato plant at `(1, 1)`. -/
def farmB : FarmModel :=
  { farmA with plants := [((1, 1), ⟨"potato", 2, 5, 1⟩)] }

/-- Concrete farm carrying one mature potato plant right under the player at
`(0, 1)`. -/
def farmC : FarmModel :=
  { farmA with plants := [((0, 1), ⟨"potato", 5, 5, 2⟩)] }

/-- Concrete one-tile farm whose player stands on soil with the zero-quantity
inventory entry `"Potato Seed"` selected — the state reached by a rejected
`buy_item` (which creates the zero entry) followed by `select_item`. -/
def farm0 : FarmModel :=
  { map := [['S']],
    plants := [],
    player := { position := (0, 0), direction := "s", energy := 100,
                money := 0, inventory := [("Potato Seed", 0)],
                selected := some "Potato Seed" },
    daysElapsed := 0 }

/-! ### Grid and dict lemmas -/

theorem plantAt_setPlant (l : List ((Int × Int) × Plant)) (p : Int × Int)
    (pl : Plant) : plantAt (setPlant l p pl) p = some pl := by
  induction l with
  | nil => simp [setPlant, plantAt]
  | cons e rest ih =>
    obtain ⟨q, old⟩ := e
    by_cases h : q = p <;> simp [setPlant, plantAt, h, ih]

theorem plantAt_removePlantAt (l : List ((Int × Int) × Plant))
    (p : Int × Int) : plantAt (removePlantAt l p) p = none := by
  induction l with
  | nil => simp [removePlantAt, plantAt]
  | cons e rest ih =>
    obtain ⟨q, pl⟩ := e
    by_cases h : q = p <;> simp [removePlantAt, plantAt, h, ih]

/-! ### Inventory lemmas -/

theorem qty_addItem (inv : Inventory) (name : String) (amount : Nat) :
    qty (addItem inv name amount) name = qty inv name + amount := by
  induction inv with
  | nil => simp [addItem, qty]
  | cons e rest ih =>
    obtain ⟨k, v⟩ := e
    by_cases h : k = name <;> simp [addItem, qty, h, ih]

theorem qty_removeItem (inv : Inventory) (name : String) (amount : Nat) :
    qty (removeItem inv name amount) name = qty inv name - amount := by
  induction inv with
  | nil => simp [removeItem, qty]
  | cons e rest ih =>
    obtain ⟨k, v⟩ := e
    by_cases h : k = name <;> simp [removeItem, qty, h, ih]

/-! ### Day-cycle lemmas -/

theorem advanceStage_preserves (pl : Plant) :
    (advanceStage pl).name = pl.name
    ∧ (advanceStage pl).maxStage = pl.maxStage
    ∧ (advanceStage pl).yieldAmount = pl.yieldAmount := by
  simp only [advanceStage]
  split <;> simp

/-! ### `inspect_ground` lemmas -/

theorem find_positionTileRow (ts : List Char) (r : Nat) (pr pc : Int) :
    ∀ c : Nat,
      (positionTileRow ts r c).find? (fun e => decide (e.1 = (pr, pc))) =
        (if pr = (r : Int) ∧ (c : Int) ≤ pc then
          match ts.get? (pc - (c : Int)).toNat with
          | some t => if imagesHasKey t then some ((pr, pc), t) else none
          | none => none
        else none) := by
  induction ts with
  | nil =>
    intro c
    simp only [positionTileRow, List.find?_nil, List.get?_nil]
    split <;> rfl
  | cons t ts ih =>
    intro c
    simp only [positionTileRow]
    rw [List.find?_append, ih (c + 1)]
    push_cast
    by_cases hpr : pr = (r : Int)
    · by_cases hpc : pc = (c : Int)
      · have hidx : (pc - (c : Int)).toNat = 0 := by omega
        have hcond : ¬ ((c : Int) + 1 ≤ pc) := by omega
        by_cases him : imagesHasKey t <;>
          simp [him, hpr, hpc, hidx, hcond, Option.or_some, Option.none_or, Option.or_none]
      · by_cases hle : (c : Int) ≤ pc
        · have hpc' : ¬ ((c : Int) = pc) := fun h => hpc h.symm
          have hle1 : (c : Int) + 1 ≤ pc := by omega
          have hidx : (pc - ((c : Int) + 1)).toNat + 1
              = (pc - (c : Int)).toNat := by omega
          by_cases him : imagesHasKey t <;>
            simp [him, hpr, hpc', hle, hle1, ← hidx, List.get?_cons_succ,
                  Option.or_some, Option.none_or, Option.or_none]
        · have hpc' : ¬ ((c : Int) = pc) := by omega
          have hle1 : ¬ ((c : Int) + 1 ≤ pc) := by omega
          by_cases him : imagesHasKey t <;>
            simp [him, hpc', hle, hle1, Option.or_some, Option.none_or, Option.or_none]
    · have hpr' : ¬ ((r : Int) = pr) := fun h => hpr h.symm
      by_cases him : imagesHasKey t <;>
        simp [him, hpr', hpr, Option.or_some, Option.none_or, Option.or_none]

theorem find_positionTileRows (m : List (List Char)) (pr pc : Int) :
    ∀ r : Nat,
      (positionTileRows m r).find? (fun e => decide (e.1 = (pr, pc))) =
        (if (r : Int) ≤ pr ∧ 0 ≤ pc then
          match (m.get? (pr - (r : Int)).toNat).bind
              (fun row => row.get? pc.toNat) with
          | some t => if imagesHasKey t then some ((pr, pc), t) else none
          | none => none
        else none) := by
  induction m with
  | nil =>
    intro r
    simp only [positionTileRows, List.find?_nil, List.get?_nil,
               Option.none_bind]
    split <;> rfl
  | cons row rest ih =>
    intro r
    simp only [positionTileRows]
    rw [List.find?_append, find_positionTileRow row r pr pc 0, ih (r + 1)]
    push_cast
    by_cases hpr : pr = (r : Int)
    · have hc1 : ¬ ((r : Int) + 1 ≤ pr) := by omega
      have hge : (r : Int) ≤ pr := by omega
      have hidx : (pr - (r : Int)).toNat = 0 := by omega
      by_cases hpc : 0 ≤ pc
      · rcases hrow : row.get? pc.toNat with _ | t
        · simp [hpr, hpc, hc1, hge, hidx, hrow, Option.or_some, Option.none_or, Option.or_none]
        · by_cases him : imagesHasKey t <;>
            simp [hpr, hpc, hc1, hge, hidx, hrow, him, Option.or_some, Option.none_or, Option.or_none]
      · simp [hpr, hpc, hc1, hge, Option.or_some, Option.none_or, Option.or_none]
    · have hpr' : ¬ (pr = (r : Int)) := hpr
      by_cases hge : (r : Int) ≤ pr
      · have hr1 : (r : Int) + 1 ≤ pr := by omega
        have hidx : (pr - ((r : Int) + 1)).toNat + 1
            = (pr - (r : Int)).toNat := by omega
        simp [hpr', hge, hr1, ← hidx, List.get?_cons_succ, Option.or_some, Option.none_or, Option.or_none]
      · have hr1 : ¬ ((r : Int) + 1 ≤ pr) := by omega
        simp [hpr', hge, hr1, Option.or_some, Option.none_or, Option.or_none]

/-! ## Claim theorems: day cycle and grid -/

/-- C4: one call to `new_day()` increments the elapsed-day counter by exactly
1, and every live plant whose stage is strictly below its species maximum
advances by exactly 1 stage, while a plant at or above its maximum stage
keeps its stage (so a stage never exceeds the maximum it already
respects). -/
theorem new_day_advances (farm : FarmModel) :
    farm.new_day.daysElapsed = farm.daysElapsed + 1
    ∧ ∀ i pos pl, farm.plants.get? i = some (pos, pl) →
        ∃ pl', farm.new_day.plants.get? i = some (pos, pl')
          ∧ (pl.stage < pl.maxStage → pl'.stage = pl.stage + 1)
          ∧ (pl.maxStage ≤ pl.stage → pl'.stage = pl.stage)
          ∧ (pl.stage ≤ pl.maxStage → pl'.stage ≤ pl.maxStage) := by
  refine ⟨rfl, fun i pos pl h => ⟨advanceStage pl, ?_, ?_, ?_, ?_⟩⟩
  · simp only [FarmModel.new_day, List.get?_map, h, Option.map_some']
  · intro hlt
    simp [advanceStage, hlt]
  · intro hge
    simp [advanceStage, Nat.not_lt.mpr hge]
  · intro hle
    by_cases hlt : pl.stage < pl.maxStage <;> simp [advanceStage, hlt] <;> omega

/-- Witness for C4: on `farmB`, a new day takes the day counter from 0 to 1
and the stage-2 potato (maximum 5) to stage 3. -/
theorem new_day_advances_witness :
    farmB.new_day.daysElapsed = farmB.daysElapsed + 1
    ∧ ∃ pl', farmB.new_day.plants.get? 0 = some ((1, 1), pl')
        ∧ pl'.stage = 2 + 1 := by
  have h := new_day_advances farmB
  obtain ⟨pl', h1, h2, -, -⟩ :=
    h.2 0 (1, 1) ⟨"potato", 2, 5, 1⟩ (by rfl)
  exact ⟨h.1, pl', h1, h2 (by decide)⟩

/-- C5: `new_day()` sets the player's energy to the fixed maximum and leaves
the player's position, inventory, money, direction and selected item, the
map, and every plant's position, name, species maximum and yield unchanged:
only the day counter, the plant stages and the energy may change. -/
theorem new_day_frame (farm : FarmModel) :
    farm.new_day.player.energy = MAX_ENERGY
    ∧ farm.new_day.player.position = farm.player.position
    ∧ farm.new_day.player.inventory = farm.player.inventory
    ∧ farm.new_day.player.money = farm.player.money
    ∧ farm.new_day.player.direction = farm.player.direction
    ∧ farm.new_day.player.selected = farm.player.selected
    ∧ farm.new_day.map = farm.map
    ∧ farm.new_day.plants.map
        (fun e => (e.1, e.2.name, e.2.maxStage, e.2.yieldAmount))
      = farm.plants.map
        (fun e => (e.1, e.2.name, e.2.maxStage, e.2.yieldAmount)) := by
  refine ⟨rfl, rfl, rfl, rfl, rfl, rfl, rfl, ?_⟩
  simp only [FarmModel.new_day, List.map_map]
  apply List.map_congr_left
  intro e _
  obtain ⟨h1, h2, h3⟩ := advanceStage_preserves e.2
  simp [h1, h2, h3]

/-- C6: at any position outside the grid bounds, `till_soil`, `untill_soil`,
`add_plant` and `harvest_plant` leave the whole model unchanged and signal
failure (`false` / no harvest result) rather than raising. -/
theorem out_of_bounds_noop (farm : FarmModel) (p : Int × Int) (pl : Plant)
    (h : farm.inBounds p = false) :
    farm.till_soil p = farm
    ∧ farm.untill_soil p = farm
    ∧ (farm.add_plant p pl).1 = false
    ∧ (farm.add_plant p pl).2 = farm
    ∧ farm.harvest_plant p = (none, farm) := by
  refine ⟨?_, ?_, ?_, ?_, ?_⟩ <;>
    simp [FarmModel.till_soil, FarmModel.untill_soil, FarmModel.add_plant,
          FarmModel.harvest_plant, h]

/-- Witness for C6: position `(-1, 0)` lies outside `farmA`'s 2×2 grid and
all four operations are no-ops there. -/
theorem out_of_bounds_noop_witness :
    farmA.inBounds (-1, 0) = false
    ∧ farmA.till_soil (-1, 0) = farmA
    ∧ farmA.untill_soil (-1, 0) = farmA
    ∧ (farmA.add_plant (-1, 0) PotatoPlant).1 = false
    ∧ (farmA.add_plant (-1, 0) PotatoPlant).2 = farmA
    ∧ farmA.harvest_plant (-1, 0) = (none, farmA) := by
  have h : farmA.inBounds (-1, 0) = false := by decide
  have hmain := out_of_bounds_noop farmA (-1, 0) PotatoPlant h
  exact ⟨h, hmain.1, hmain.2.1, hmain.2.2.1, hmain.2.2.2.1, hmain.2.2.2.2⟩

/-- C7: at any in-bounds position, `add_plant` succeeds iff the tile there is
soil and no plant occupies it; immediately after a successful `add_plant`, a
second `add_plant` at the same position fails. -/
theorem add_plant_correct (farm : FarmModel) (p : Int × Int)
    (pl pl2 : Plant) (h : farm.inBounds p = true) :
    ((farm.add_plant p pl).1 = true ↔
      tileAt farm.map p = some SOIL ∧ plantAt farm.plants p = none)
    ∧ ((farm.add_plant p pl).1 = true →
        ((farm.add_plant p pl).2.add_plant p pl2).1 = false) := by
  by_cases hc : tileAt farm.map p = some SOIL ∧ plantAt farm.plants p = none
  · refine ⟨by simp [FarmModel.add_plant, h, hc], fun _ => ?_⟩
    simp [FarmModel.add_plant, h, hc, plantAt_setPlant]
  · refine ⟨by simp [FarmModel.add_plant, h, hc], fun hs => ?_⟩
    simp [FarmModel.add_plant, h, hc] at hs

/-- Witness for C7: on `farmA` the soil tile `(0, 1)` is unoccupied, so
planting a potato there succeeds and a second planting at the same tile
fails. -/
theorem add_plant_correct_witness :
    farmA.inBounds (0, 1) = true
    ∧ (farmA.add_plant (0, 1) PotatoPlant).1 = true
    ∧ ((farmA.add_plant (0, 1) PotatoPlant).2.add_plant (0, 1) KalePlant).1
        = false := by
  have h : farmA.inBounds (0, 1) = true := by decide
  have hmain := add_plant_correct farmA (0, 1) PotatoPlant KalePlant h
  have hs : (farmA.add_plant (0, 1) PotatoPlant).1 = true :=
    hmain.1.mpr ⟨by decide, by decide⟩
  exact ⟨h, hs, hmain.2 hs⟩

/-! ## Claim theorems: economy -/

/-- C1: `buy(item, price)` fails iff the player's money is strictly less than
`price`; on success the money decreases by exactly `price` and the inventory
quantity for the item increases by exactly 1; on failure the money and the
inventory are unchanged. -/
theorem buy_correct (p : Player) (name : String) (price : Nat) :
    ((buy p name price).2 = false ↔ p.money < price)
    ∧ ((buy p name price).2 = true →
        (buy p name price).1.money + price = p.money
        ∧ qty (buy p name price).1.inventory name = qty p.inventory name + 1)
    ∧ ((buy p name price).2 = false →
        (buy p name price).1.money = p.money
        ∧ (buy p name price).1.inventory = p.inventory) := by
  by_cases h : p.money < price
  · simp [buy, h]
  · simp [buy, h, qty_addItem, Nat.sub_add_cancel (Nat.le_of_not_lt h)]

/-- Witness for C1: with 10 dollars, buying at price 3 succeeds, leaves 7
dollars and one more unit. -/
theorem buy_correct_witness :
    (buy ⟨(0, 0), "s", 10, 10, [], none⟩ "Potato Seed" 3).1.money + 3 = 10
    ∧ qty (buy ⟨(0, 0), "s", 10, 10, [], none⟩ "Potato Seed" 3).1.inventory
        "Potato Seed"
      = qty ([] : Inventory) "Potato Seed" + 1 := by
  have h := buy_correct ⟨(0, 0), "s", 10, 10, [], none⟩ "Potato Seed" 3
  exact h.2.1 (by decide)

/-- C2: `sell(item, price)` fails iff the player's inventory quantity for the
item is 0; on success the money increases by exactly `price` and the inventory
quantity decreases by exactly 1; on failure the money and the inventory are
unchanged. -/
theorem sell_correct (p : Player) (name : String) (price : Nat) :
    ((sell p name price).2 = false ↔ qty p.inventory name = 0)
    ∧ ((sell p name price).2 = true →
        (sell p name price).1.money = p.money + price
        ∧ qty (sell p name price).1.inventory name + 1 = qty p.inventory name)
    ∧ ((sell p name price).2 = false →
        (sell p name price).1.money = p.money
        ∧ (sell p name price).1.inventory = p.inventory) := by
  by_cases h : qty p.inventory name = 0
  · simp [sell, h]
  · simp [sell, h, qty_removeItem]
    omega

/-- Witness for C2: selling one of two potatoes at price 5 yields 5 dollars
and leaves one potato. -/
theorem sell_correct_witness :
    (sell ⟨(0, 0), "s", 10, 0, [("Potato", 2)], none⟩ "Potato" 5).1.money
      = 0 + 5
    ∧ qty (sell ⟨(0, 0), "s", 10, 0, [("Potato", 2)], none⟩ "Potato" 5).1.inventory
        "Potato" + 1
      = qty [("Potato", 2)] "Potato" := by
  have h := sell_correct ⟨(0, 0), "s", 10, 0, [("Potato", 2)], none⟩ "Potato" 5
  exact h.2.1 (by decide)

/-! ## Controller lemmas -/

theorem handle_keypress_p (farm : FarmModel) :
    handle_keypress farm "p" = plantAction farm := rfl

theorem handle_keypress_h (farm : FarmModel) :
    handle_keypress farm "h" = harvestAction farm := rfl

theorem add_plant_player (farm : FarmModel) (p : Int × Int) (pl : Plant) :
    (farm.add_plant p pl).2.player = farm.player := by
  simp only [FarmModel.add_plant]
  split <;> rfl

theorem add_plant_fail (farm : FarmModel) (p : Int × Int) (pl : Plant)
    (h : (farm.add_plant p pl).1 = false) : (farm.add_plant p pl).2 = farm := by
  by_cases hc : farm.inBounds p ∧ tileAt farm.map p = some SOIL
      ∧ plantAt farm.plants p = none
  · simp [FarmModel.add_plant, hc] at h
  · simp [FarmModel.add_plant, hc]

theorem harvest_plant_none (farm : FarmModel) (q : Int × Int)
    (hq : (farm.harvest_plant q).1 = none) :
    (farm.harvest_plant q).2 = farm := by
  by_cases hb : farm.inBounds q
  · rcases hpl : plantAt farm.plants q with _ | pl
    · simp [FarmModel.harvest_plant, hb, hpl]
    · by_cases hch : canHarvest pl
      · simp [FarmModel.harvest_plant, hb, hpl, hch] at hq
      · simp [FarmModel.harvest_plant, hb, hpl, hch]
  · simp [FarmModel.harvest_plant, hb]

/-! ## Claim theorems: harvesting and planting -/

/-- C3: at any in-bounds position, `harvest_plant` returns an
`(item_name, yield_amount)` result iff a plant is present there whose
`can_harvest()` is true; after a successful harvest the position carries no
plant, and when no result is returned the model is unchanged.  In the
controller's `"h"` branch the harvested item is added to the player's
inventory exactly when `harvest_plant` returns a result. -/
theorem harvest_correct (farm : FarmModel) (p : Int × Int)
    (h : farm.inBounds p = true) :
    ((farm.harvest_plant p).1.isSome = true ↔
      ∃ pl, plantAt farm.plants p = some pl ∧ canHarvest pl = true)
    ∧ (∀ r farm2, farm.harvest_plant p = (some r, farm2) →
        plantAt farm2.plants p = none)
    ∧ ((farm.harvest_plant p).1 = none → (farm.harvest_plant p).2 = farm)
    ∧ (∀ n y farm2,
        farm.harvest_plant farm.player.position = (some (n, y), farm2) →
        (handle_keypress farm "h").player.inventory
          = addItem farm2.player.inventory n y)
    ∧ ((farm.harvest_plant farm.player.position).1 = none →
        handle_keypress farm "h" = farm) := by
  refine ⟨?_, ?_, harvest_plant_none farm p, ?_, ?_⟩
  · rcases hpl : plantAt farm.plants p with _ | pl
    · simp [FarmModel.harvest_plant, h, hpl]
    · by_cases hch : canHarvest pl <;>
        simp [FarmModel.harvest_plant, h, hpl, hch]
  · intro r farm2 heq
    rcases hpl : plantAt farm.plants p with _ | pl
    · simp [FarmModel.harvest_plant, h, hpl] at heq
    · by_cases hch : canHarvest pl
      · simp [FarmModel.harvest_plant, h, hpl, hch] at heq
        rw [← heq.2]
        exact plantAt_removePlantAt farm.plants p
      · simp [FarmModel.harvest_plant, h, hpl, hch] at heq
  · intro n y farm2 heq
    rw [handle_keypress_h]
    simp only [harvestAction, heq]
  · intro hq
    have h2 : (farm.harvest_plant farm.player.position).2 = farm :=
      harvest_plant_none farm _ hq
    rw [handle_keypress_h]
    simp only [harvestAction, hq, h2]

/-- Witness for C3: on `farmC` the mature potato under the player at `(0, 1)`
is harvestable, harvesting clears the tile, and the controller's `"h"` key
adds the two harvested potatoes to the inventory. -/
theorem harvest_correct_witness :
    (farmC.harvest_plant (0, 1)).1.isSome = true
    ∧ plantAt ({ farmC with plants := [] } : FarmModel).plants (0, 1) = none
    ∧ (handle_keypress farmC "h").player.inventory
        = addItem ({ farmC with plants := [] } : FarmModel).player.inventory
            "potato" 2 := by
  have h := harvest_correct farmC (0, 1) (by decide)
  have heq : farmC.harvest_plant (0, 1)
      = (some ("potato", 2), { farmC with plants := [] }) := by decide
  refine ⟨?_, ?_, ?_⟩
  · rw [heq]
    rfl
  · exact h.2.1 ("potato", 2) _ heq
  · exact h.2.2.2.1 "potato" 2 _ heq

/-- C8 (amended): in the controller's `"p"` branch, when `add_plant` succeeds
and the player's inventory holds at least one unit of the selected seed,
exactly one unit of that seed is removed; when `add_plant` fails, the player
(inventory included) is unchanged.  The original claim — exactly one unit
removed whenever `add_plant` succeeds — fails when the selected seed entry
has quantity 0, which a rejected `buy_item` followed by `select_item` can
produce (see the counterexample). -/
theorem plant_action_correct (farm : FarmModel) (plant : String) (cp : Plant)
    (hsel : farm.player.selected = some plant)
    (hsoil : inspect_ground farm farm.player.position = some SOIL)
    (hne : plant ≠ "")
    (hinv : hasKey farm.player.inventory plant = true)
    (hseed : hasSub "Seed".toList plant.toList = true)
    (hcp : create_plants (lowerString (firstToken plant)) = some cp) :
    ((farm.add_plant farm.player.position cp).1 = true →
      1 ≤ qty farm.player.inventory plant →
      qty (handle_keypress farm "p").player.inventory plant + 1
        = qty farm.player.inventory plant)
    ∧ ((farm.add_plant farm.player.position cp).1 = false →
      (handle_keypress farm "p").player = farm.player) := by
  constructor
  · intro hadd hq
    rw [handle_keypress_p]
    simp only [plantAction, hsel, hsoil, hne, hinv, hseed, hcp, hadd,
               ne_eq, not_false_eq_true, and_self, if_true, if_pos]
    rw [add_plant_player, qty_removeItem]
    omega
  · intro hadd
    rw [handle_keypress_p]
    simp only [plantAction, hsel, hsoil, hne, hinv, hseed, hcp, hadd,
               ne_eq, not_false_eq_true, and_self, if_true, Bool.false_eq_true,
               if_false]
    rw [add_plant_fail farm _ cp hadd]

/-- Witness for the amended C8: on `farmA` (two potato seeds held, soil under
the player) the planting key removes exactly one seed. -/
theorem plant_action_correct_witness :
    qty (handle_keypress farmA "p").player.inventory "Potato Seed" + 1
      = qty farmA.player.inventory "Potato Seed" := by
  have h := plant_action_correct farmA "Potato Seed" PotatoPlant rfl
    (by decide) (by decide) (by decide) (by decide) (by decide)
  exact h.1 (by decide) (by decide)

/-- Counterexample to C8 as stated: on `farm0` the selected seed entry has
quantity 0; the planting key still plants the potato (`add_plant` succeeds)
yet no inventory unit is removed, so the removed amount is 0, not 1. -/
theorem plant_action_counterexample :
    farm0.player.selected = some "Potato Seed"
    ∧ inspect_ground farm0 farm0.player.position = some SOIL
    ∧ hasKey farm0.player.inventory "Potato Seed" = true
    ∧ hasSub "Seed".toList "Potato Seed".toList = true
    ∧ create_plants (lowerString (firstToken "Potato Seed")) = some PotatoPlant
    ∧ (farm0.add_plant farm0.player.position PotatoPlant).1 = true
    ∧ plantAt (handle_keypress farm0 "p").plants (0, 0) = some PotatoPlant
    ∧ ¬ (qty (handle_keypress farm0 "p").player.inventory "Potato Seed" + 1
          = qty farm0.player.inventory "Potato Seed") := by
  decide

/-! ## Claim theorems: controller lookups -/

/-- C9: `create_plants(plant_name)` returns a plant whose name equals
`plant_name` when it is one of the three species names, and `None` for every
other string; it is a total pure function of its argument. -/
theorem create_plants_correct (s : String) :
    (create_plants s = none ↔ s ≠ "potato" ∧ s ≠ "kale" ∧ s ≠ "berry")
    ∧ ∀ pl, create_plants s = some pl → pl.name = s := by
  by_cases h1 : s = "potato"
  · subst h1
    have hcp : create_plants "potato" = some PotatoPlant := by decide
    refine ⟨by simp [hcp], fun pl h => ?_⟩
    rw [hcp] at h
    rw [← Option.some.inj h]
    rfl
  · by_cases h2 : s = "kale"
    · subst h2
      have hcp : create_plants "kale" = some KalePlant := by decide
      refine ⟨by simp [hcp], fun pl h => ?_⟩
      rw [hcp] at h
      rw [← Option.some.inj h]
      rfl
    · by_cases h3 : s = "berry"
      · subst h3
        have hcp : create_plants "berry" = some BerryPlant := by decide
        refine ⟨by simp [hcp], fun pl h => ?_⟩
        rw [hcp] at h
        rw [← Option.some.inj h]
        rfl
      · have hb1 : (s == "potato") = false := beq_eq_false_iff_ne.mpr h1
        have hb2 : (s == "kale") = false := beq_eq_false_iff_ne.mpr h2
        have hb3 : (s == "berry") = false := beq_eq_false_iff_ne.mpr h3
        have hnone : create_plants s = none := by
          simp [create_plants, List.find?, PotatoPlant, KalePlant, BerryPlant,
                hb1, hb2, hb3]
        refine ⟨by simp [hnone, h1, h2, h3], fun pl h => ?_⟩
        rw [hnone] at h
        cases h

/-- Witness for C9: `"potato"` yields the potato plant, whose name matches. -/
theorem create_plants_correct_witness :
    PotatoPlant.name = "potato" :=
  (create_plants_correct "potato").2 PotatoPlant (by decide)

/-- C10: `inspect_ground(position)` returns the tile character at the
position of the model's map when the position lies within the map and that
character is a key of `IMAGES`, and `None` otherwise; as a pure function of
the model it mutates nothing. -/
theorem inspect_ground_correct (farm : FarmModel) (pr pc : Int) :
    inspect_ground farm (pr, pc) = inspectGroundSpec farm (pr, pc) := by
  simp only [inspect_ground]
  rw [find_positionTileRows farm.map pr pc 0]
  simp only [inspectGroundSpec, tileAt, Nat.cast_zero, Int.sub_zero]
  by_cases h : 0 ≤ pr ∧ 0 ≤ pc
  · rw [if_pos h, if_pos ⟨h.1, h.2⟩]
    rcases hX : (farm.map.get? pr.toNat).bind (fun row => row.get? pc.toNat)
      with _ | t
    · rfl
    · by_cases him : imagesHasKey t <;> simp [him]
  · rw [if_neg h, if_neg h]
    rfl

end Farm
